import Mathlib

/-!
Shallow embedding of `src/config/dynamic.ts` (the `PluginConfig` class of the
youtube-music repository) and verification of the specification's claims
about it.

Modelling conventions:
* JavaScript objects used as configuration records are modelled as ordered
  association lists `List (String × Value)` with unique keys maintained by
  `setField` (JS property update keeps insertion order; a new key is appended).
* Configuration values are modelled by the primitive carrier `Value`;
  JavaScript strict (in)equality `!==` on primitives is value (in)equality,
  and the `undefined` sentinel is the `Value.undefined` constructor.
* Subscriber callbacks are opaque, so they are modelled by identifiers
  (`Nat`); every observable side effect (calling a subscriber, persisting via
  `setOptions`, informing the menu via `setMenuOptions`) is recorded in an
  event trace `List Event`, in the order the code performs it.
* A method that in TS mutates `this` is a Lean function returning the updated
  state together with the emitted trace.
-/

/-- A primitive JavaScript value stored in a plugin configuration field.
`undefined` is the absent sentinel (`this.config[key]` for a missing key). -/
inductive Value where
  | undefined
  | boolV (b : Bool)
  | intV (n : Int)
  | strV (s : String)
deriving DecidableEq, Repr

/-- A JS object used as a configuration record: an insertion-ordered
association list from field name to value. -/
abbrev Config := List (String × Value)

/-- `o[k]` for a JS object: the value at key `k`, or `undefined` if absent. -/
def getField : Config → String → Value
  | [], _ => Value.undefined
  | (k, v) :: rest, key => if k = key then v else getField rest key

/-- `o[k] = v` for a JS object: update in place if the key exists (keeping
insertion order), otherwise append the new key at the end. -/
def setField : Config → String → Value → Config
  | [], key, val => [(key, val)]
  | (k, v) :: rest, key, val =>
    if k = key then (key, val) :: rest else (k, v) :: setField rest key val

/-- The JS spread merge `{...a, ...b}`: start from `a` and write each entry
of `b` over it in order. -/
def spreadMerge (a b : Config) : Config :=
  b.foldl (fun acc kv => setField acc kv.1 kv.2) a

/-- The per-key subscriber map `this.subscribers`: field name to the (at most
one) registered callback identifier. -/
abbrev Subscribers := List (String × Nat)

/-- `this.subscribers[valueName]` — `some` callback id, or `none`. -/
def lookupSub : Subscribers → String → Option Nat
  | [], _ => none
  | (k, s) :: rest, key => if k = key then some s else lookupSub rest key

/-- `this.subscribers[valueName] = fn` — replace if present, else append. -/
def setSub : Subscribers → String → Nat → Subscribers
  | [], key, s => [(key, s)]
  | (k, s0) :: rest, key, s =>
    if k = key then (key, s) :: rest else (k, s0) :: setSub rest key s

/-- The state of one `PluginConfig` instance (`src/config/dynamic.ts`
lines 55-62): plugin name, live config, defaults snapshot, the
`enableFront` flag, the per-key subscriber map and the all-subscriber list. -/
structure PluginConfig where
  name : String
  config : Config
  defaultConfig : Config
  enableFront : Bool
  subscribers : Subscribers
  allSubscribers : List Nat
deriving Repr

/-- An observable side effect emitted by a `PluginConfig` method. -/
inductive Event where
  /-- `this.subscribers[key]?.(this.config[key])`: per-key callback `sub`
  invoked with the field's current value. -/
  | perKeyNotify (sub : Nat) (key : String) (value : Value)
  /-- An all-subscriber `sub` invoked with the full current config. -/
  | allNotify (sub : Nat) (config : Config)
  /-- `setOptions(this.name, this.config)` — the persistence call. -/
  | save (name : String) (config : Config)
  /-- `setMenuOptions(this.name, this.config)` — the menu collaborator. -/
  | setMenuOptions (name : String) (config : Config)
deriving DecidableEq, Repr

/-- Whether an event is a persistence call. -/
def Event.isSave : Event → Bool
  | .save _ _ => true
  | _ => false

/-- Whether an event is an all-subscriber invocation. -/
def Event.isAllNotify : Event → Bool
  | .allNotify _ _ => true
  | _ => false

/-- A runtime JavaScript value as it may be passed to `setAll` across the
boundary: a primitive, `null`, a plain object, or an array. -/
inductive JSArg where
  | undefined
  | nullV
  | boolA (b : Bool)
  | numA (n : Int)
  | strA (s : String)
  | obj (entries : Config)
  | arr (elems : List Value)
deriving DecidableEq, Repr

/-- JS truthiness of a value (`!options` is its negation): `undefined`,
`null`, `false`, `0` and `""` are falsy; objects and arrays are truthy. -/
def jsTruthy : JSArg → Bool
  | .undefined => false
  | .nullV => false
  | .boolA b => b
  | .numA n => n != 0
  | .strA s => s != ""
  | .obj _ => true
  | .arr _ => true

/-- JS `typeof`; note `typeof null` is `"object"`. -/
def jsTypeof : JSArg → String
  | .undefined => "undefined"
  | .nullV => "object"
  | .boolA _ => "boolean"
  | .numA _ => "number"
  | .strA _ => "string"
  | .obj _ => "object"
  | .arr _ => "object"

/-- `Object.entries` on the values that can reach it in `setAll` (the guard
admits only objects and arrays): an object yields its own entries in
insertion order, an array yields index-keyed entries `("0", v0), ...`. -/
def jsEntries : JSArg → Config
  | .obj es => es
  | .arr vs => vs.enum.map fun p => (toString p.1, p.2)
  | _ => []

/-- The Default Table collaborator (`defaultConfig.plugins` in the source):
a read-only mapping from plugin identifier to its default config. -/
abbrev DefaultTable := List (String × Config)

/-- `defaultConfig.plugins[name]` — `some` entry or `none` (JS `undefined`). -/
def lookupTable : DefaultTable → String → Option Config
  | [], _ => none
  | (k, cfg) :: rest, nm => if k = nm then some cfg else lookupTable rest nm

/-- The override source of the constructor (line 71):
`options.initialOptions || getOptions(name) || {}` — both operands are
objects-or-undefined, so `||` is exactly the option fallback chain. -/
def overrideSource (initialOptions persisted : Option Config) : Config :=
  (initialOptions.orElse fun _ => persisted).getD []

/-- The `PluginConfig` constructor (lines 64-83): resolve defaults from the
Default Table (`?? {}` for an absent entry), resolve the override source,
and set `config := {...pluginDefaultConfig, ...pluginConfig}`. The class
fields `subscribers`/`allSubscribers` are initialized empty. The
`setupFront` call and the registry write perform no state change on the
store itself and are modelled separately. -/
def mkPluginConfig (dt : DefaultTable) (nm : String)
    (initialOptions persisted : Option Config) (ef : Bool) : PluginConfig :=
  { name := nm
    enableFront := ef
    defaultConfig := (lookupTable dt nm).getD []
    config := spreadMerge ((lookupTable dt nm).getD []) (overrideSource initialOptions persisted)
    subscribers := []
    allSubscribers := [] }

namespace PluginConfig

/-- `save` (lines 146-148): `setOptions(this.name, this.config)`. -/
def save (c : PluginConfig) : Event :=
  Event.save c.name c.config

/-- `onChange(valueName, single)` (lines 150-157): invoke the per-key
subscriber for `valueName` (if any) with the field's current value; if
`single` is true, invoke every all-subscriber in order with the full
current config. -/
def onChange (c : PluginConfig) (valueName : String) (single : Bool) : List Event :=
  (match lookupSub c.subscribers valueName with
   | some s => [Event.perKeyNotify s valueName (getField c.config valueName)]
   | none => []) ++
  (if single then c.allSubscribers.map (fun s => Event.allNotify s c.config) else [])

/-- `get(key)` (lines 85-87): `return this.config?.[key]`. -/
def get (c : PluginConfig) (key : String) : Value :=
  getField c.config key

/-- `set(key, value)` (lines 89-93): mutate, then `onChange(key)` with
`single = true`, then `save()`. -/
def set (c : PluginConfig) (key : String) (value : Value) : PluginConfig × List Event :=
  ({ c with config := setField c.config key value },
   onChange { c with config := setField c.config key value } key true ++
     [save { c with config := setField c.config key value }])

/-- `getAll()` (lines 95-97): a fresh copy `{...this.config}` — in the
immutable embedding, the config itself. -/
def getAll (c : PluginConfig) : Config :=
  c.config

/-- `getDefaultConfig()` (lines 122-124). -/
def getDefaultConfig (c : PluginConfig) : Config :=
  c.defaultConfig

/-- One iteration's state update in the `setAll` loop (line 107):
`if (value !== undefined) this.config[key] = value;`. -/
def setAllUpdate (c : PluginConfig) (key : String) (value : Value) : PluginConfig :=
  if value ≠ Value.undefined then { c with config := setField c.config key value } else c

/-- The `setAll` entry loop (lines 104-111): for each entry whose value
differs (`!==`) from `this.config[key]`, update unless the value is
`undefined`, call `onChange(key, false)`, and set the `changed` flag.
Returns the final state, the emitted trace, and the `changed` flag. -/
def setAllLoop : PluginConfig → Config → PluginConfig × List Event × Bool
  | c, [] => (c, [], false)
  | c, (key, value) :: rest =>
    if getField c.config key ≠ value then
      ((setAllLoop (setAllUpdate c key value) rest).1,
       onChange (setAllUpdate c key value) key false ++
         (setAllLoop (setAllUpdate c key value) rest).2.1,
       true)
    else
      setAllLoop c rest

/-- `setAll(options)` (lines 99-120): throw `'Options must be an object.'`
when `!options || typeof options !== 'object'` (the thrown error is the
`Except.error` component; the state is returned unchanged and no event is
emitted). Otherwise run the entry loop, fan out once to every
all-subscriber if the `changed` flag is set, and finally `save()`. -/
def setAll (c : PluginConfig) (options : JSArg) :
    Except String Unit × PluginConfig × List Event :=
  if jsTruthy options = false ∨ jsTypeof options ≠ "object" then
    (Except.error "Options must be an object.", c, [])
  else
    (Except.ok (),
     (setAllLoop c (jsEntries options)).1,
     (setAllLoop c (jsEntries options)).2.1 ++
       (if (setAllLoop c (jsEntries options)).2.2 then
          (setAllLoop c (jsEntries options)).1.allSubscribers.map
            (fun s => Event.allNotify s (setAllLoop c (jsEntries options)).1.config)
        else []) ++
       [save (setAllLoop c (jsEntries options)).1])

/-- `setAndMaybeRestart(key, value)` (lines 131-135): mutate, then
`setMenuOptions(this.name, this.config)`, then `onChange(key)` with
`single = true`; `save()` is not called. -/
def setAndMaybeRestart (c : PluginConfig) (key : String) (value : Value) :
    PluginConfig × List Event :=
  ({ c with config := setField c.config key value },
   Event.setMenuOptions c.name (setField c.config key value) ::
     onChange { c with config := setField c.config key value } key true)

/-- `subscribe(valueName, fn)` (lines 137-139):
`this.subscribers[valueName] = fn` — last write wins. -/
def subscribe (c : PluginConfig) (valueName : String) (fn : Nat) : PluginConfig :=
  { c with subscribers := setSub c.subscribers valueName fn }

/-- `subscribeAll(fn)` (lines 141-143): append to `this.allSubscribers`. -/
def subscribeAll (c : PluginConfig) (fn : Nat) : PluginConfig :=
  { c with allSubscribers := c.allSubscribers ++ [fn] }

end PluginConfig

/-- Shape of one own enumerable property of a `PluginConfig` instance, as
seen by `Object.entries(this)`. -/
inductive OwnMember where
  | objM
  | arrM
  | strM
  | boolM
  | funcM (fname : String)
deriving DecidableEq, Repr

/-- The own enumerable properties of a `PluginConfig` instance at the time
`setupFront` runs, in property-creation order. Per ECMAScript semantics,
`Object.entries(this)` lists own enumerable string-keyed properties only:
the class fields `subscribers` and `allSubscribers` (initialized in the
class body, lines 61-62) followed by the constructor assignments `name`,
`enableFront`, `defaultConfig`, `config` (lines 73-76). Instance methods
(`get`, `set`, `getAll`, `setAll`, ...) are defined on
`PluginConfig.prototype` and are not own properties, so they never appear. -/
def ownEntries : List (String × OwnMember) :=
  [("subscribers", OwnMember.objM),
   ("allSubscribers", OwnMember.arrM),
   ("name", OwnMember.strM),
   ("enableFront", OwnMember.boolM),
   ("defaultConfig", OwnMember.objM),
   ("config", OwnMember.objM)]

/-- Whether a member is a function (`typeof fn === 'function'`). -/
def isFunctionMember : OwnMember → Bool
  | .funcM _ => true
  | _ => false

/-- The source's `fn.name in ignoredMethods` test (line 163), where
`ignoredMethods` is the array `['subscribe', 'subscribeAll']`: the JS `in`
operator tests property keys of the array object — the indices `"0"`,
`"1"` and `"length"` (prototype-chain method names, irrelevant for
identifier-shaped method names, are omitted) — not membership of the
strings. -/
def nameInIgnoredArray (fname : String) : Bool :=
  fname = "0" || fname = "1" || fname = "length"

/-- The `setupFront` registration loop (lines 162-169): iterate the own
entries; if the member is not a function, or its name passes the `in` test,
`return` from `setupFront` (abandoning the rest of the loop and the two
`ipcMain.on` subscription registrations after it); otherwise register a
request/response handler on channel `"<name>-config-<fnName>"`. Returns
the list of registered handler channels. -/
def setupFrontLoop (nm : String) : List (String × OwnMember) → List String
  | [] => []
  | (fnName, m) :: rest =>
    if !(isFunctionMember m) ||
        (match m with
         | OwnMember.funcM f => nameInIgnoredArray f
         | _ => false) then
      []
    else
      (nm ++ "-config-" ++ fnName) :: setupFrontLoop nm rest

/-- All request/response handler channels registered by `setupFront` for a
store named `nm` (lines 159-182). -/
def setupFrontHandleChannels (nm : String) : List String :=
  setupFrontLoop nm ownEntries

/-- A mutating store operation, for stating trace-independent invariants
over arbitrary call sequences. -/
inductive MutOp where
  | setOp (key : String) (value : Value)
  | setAllOp (arg : JSArg)
  | setAndMaybeRestartOp (key : String) (value : Value)
deriving Repr

/-- Apply a mutating operation, discarding the emitted trace. -/
def applyMutOp (c : PluginConfig) : MutOp → PluginConfig
  | .setOp k v => (c.set k v).1
  | .setAllOp a => (c.setAll a).2.1
  | .setAndMaybeRestartOp k v => (c.setAndMaybeRestart k v).1

/-- A sample store used to instantiate hypotheses of the general theorems:
per-key subscribers `1` for `"a"` and `2` for `"b"`, one all-subscriber `5`. -/
def cEx : PluginConfig :=
  { name := "p"
    config := [("a", Value.intV 3), ("b", Value.intV 2)]
    defaultConfig := []
    enableFront := false
    subscribers := [("a", 1), ("b", 2)]
    allSubscribers := [5] }

/-- A sample store with one all-subscriber, used to exhibit the fan-out
behaviour of `setAll` on a patch entry carrying `undefined`. -/
def cUndef : PluginConfig :=
  { name := "p"
    config := [("a", Value.intV 1)]
    defaultConfig := []
    enableFront := false
    subscribers := []
    allSubscribers := [7] }

/-- A sample empty store used to exhibit `setAll` on an array argument. -/
def cArr : PluginConfig :=
  { name := "q"
    config := []
    defaultConfig := []
    enableFront := false
    subscribers := []
    allSubscribers := [] }

/-- The specification's description of the per-key notification sequence of
`setAll`, read against the pre-call state: one individual notification —
carrying the post-update field value — for each patch entry, in patch
order, whose value differs from the stored one and whose key has a
registered subscriber, and nothing else. The loop's emitted trace is
proved to be exactly this sequence, so a patch with no differing entries
notifies no subscriber, and no key is notified more than once per entry. -/
def setAllExpectedNotifications (c : PluginConfig) : Config → List Event
  | [] => []
  | (key, value) :: rest =>
    (if getField c.config key ≠ value then
       match lookupSub c.subscribers key with
       | some s =>
         [Event.perKeyNotify s key
           (if value = Value.undefined then getField c.config key else value)]
       | none => []
     else []) ++ setAllExpectedNotifications c rest

/-! ## Helper lemmas about the JS object model -/

/-- Reading back the key just written. -/
lemma getField_setField_self (o : Config) (k : String) (v : Value) :
    getField (setField o k v) k = v := by
  induction o with
  | nil => simp [setField, getField]
  | cons kv rest ih =>
    obtain ⟨k0, v0⟩ := kv
    by_cases h : k0 = k
    · simp [setField, h, getField]
    · simp [setField, h, getField, ih]

/-- Writing one key leaves every other key unchanged. -/
lemma getField_setField_ne (o : Config) (k k' : String) (v : Value) (h : k' ≠ k) :
    getField (setField o k v) k' = getField o k' := by
  induction o with
  | nil => simp [setField, getField, Ne.symm h]
  | cons kv rest ih =>
    obtain ⟨k0, v0⟩ := kv
    by_cases h0 : k0 = k
    · subst h0
      simp [setField, getField, Ne.symm h]
    · simp [setField, h0, getField, ih]

/-- Writing to a key absent from `a` appends the entry. -/
lemma setField_of_not_mem (a : Config) (k : String) (v : Value)
    (h : k ∉ a.map Prod.fst) :
    setField a k v = a ++ [(k, v)] := by
  induction a with
  | nil => simp [setField]
  | cons kv rest ih =>
    obtain ⟨k0, v0⟩ := kv
    simp only [List.map_cons, List.mem_cons] at h
    push_neg at h
    simp [setField, Ne.symm h.1, ih h.2]

/-- Folding disjoint fresh entries over `a` appends them in order. -/
lemma foldl_setField_of_disjoint (o : Config) :
    ∀ a : Config, (o.map Prod.fst).Nodup →
      (∀ k, k ∈ o.map Prod.fst → k ∉ a.map Prod.fst) →
      o.foldl (fun acc kv => setField acc kv.1 kv.2) a = a ++ o := by
  induction o with
  | nil => intro a _ _; simp
  | cons kv rest ih =>
    intro a hnd hdisj
    obtain ⟨k0, v0⟩ := kv
    simp only [List.map_cons, List.nodup_cons] at hnd
    have hk0 : k0 ∉ a.map Prod.fst := hdisj k0 (by simp)
    have hrest : ∀ k, k ∈ rest.map Prod.fst → k ∉ (a ++ [(k0, v0)]).map Prod.fst := by
      intro k hk
      simp only [List.map_append, List.mem_append, List.map_cons, List.map_nil,
        List.mem_singleton]
      push_neg
      exact ⟨hdisj k (by simp [hk]), fun hh => hnd.1 (hh ▸ hk)⟩
    calc ((k0, v0) :: rest).foldl (fun acc kv => setField acc kv.1 kv.2) a
        = rest.foldl (fun acc kv => setField acc kv.1 kv.2) (setField a k0 v0) := by
          simp [List.foldl_cons]
      _ = rest.foldl (fun acc kv => setField acc kv.1 kv.2) (a ++ [(k0, v0)]) := by
          rw [setField_of_not_mem a k0 v0 hk0]
      _ = (a ++ [(k0, v0)]) ++ rest := ih (a ++ [(k0, v0)]) hnd.2 hrest
      _ = a ++ ((k0, v0) :: rest) := by simp

/-- Merging over the empty object reproduces the overrides when their keys
are unique (as JS object keys always are). -/
lemma spreadMerge_nil (o : Config) (hnd : (o.map Prod.fst).Nodup) :
    spreadMerge [] o = o := by
  have := foldl_setField_of_disjoint o [] hnd (by simp)
  simpa [spreadMerge] using this

/-- Looking up a key just subscribed. -/
lemma lookupSub_setSub_self (m : Subscribers) (k : String) (s : Nat) :
    lookupSub (setSub m k s) k = some s := by
  induction m with
  | nil => simp [setSub, lookupSub]
  | cons kv rest ih =>
    obtain ⟨k0, s0⟩ := kv
    by_cases h : k0 = k
    · simp [setSub, h, lookupSub]
    · simp [setSub, h, lookupSub, ih]

/-! ## Helper lemmas about the setAll loop -/

/-- `setAllUpdate` only ever touches the `config` field. -/
lemma setAllUpdate_fst (c : PluginConfig) (key : String) (value : Value) :
    PluginConfig.setAllUpdate c key value =
      { c with config := (PluginConfig.setAllUpdate c key value).config } := by
  unfold PluginConfig.setAllUpdate
  split <;> rfl

/-- The field just processed by `setAllUpdate`: the new value when it is
not `undefined`, the old one otherwise. -/
lemma getField_setAllUpdate_self (c : PluginConfig) (key : String) (value : Value) :
    getField (PluginConfig.setAllUpdate c key value).config key =
      (if value = Value.undefined then getField c.config key else value) := by
  unfold PluginConfig.setAllUpdate
  by_cases hv : value = Value.undefined <;> simp [hv, getField_setField_self]

/-- `setAllUpdate` leaves every other field unchanged. -/
lemma getField_setAllUpdate_ne (c : PluginConfig) (key k : String) (value : Value)
    (h : k ≠ key) :
    getField (PluginConfig.setAllUpdate c key value).config k = getField c.config k := by
  unfold PluginConfig.setAllUpdate
  split <;> simp [getField_setField_ne _ _ _ _ h]

/-- Any projection of the state invariant under `setAllUpdate` is invariant
under the whole loop (the loop only ever rewrites `config`). -/
lemma setAllLoop_preserves {α : Type} (f : PluginConfig → α)
    (hf : ∀ (c : PluginConfig) (key : String) (value : Value),
      f (PluginConfig.setAllUpdate c key value) = f c) :
    ∀ (es : Config) (c : PluginConfig), f (PluginConfig.setAllLoop c es).1 = f c := by
  intro es
  induction es with
  | nil => intro c; rfl
  | cons kv rest ih =>
    intro c
    obtain ⟨key, value⟩ := kv
    by_cases h : getField c.config key ≠ value
    · simp only [PluginConfig.setAllLoop, if_pos h]
      rw [ih (PluginConfig.setAllUpdate c key value), hf]
    · simp only [PluginConfig.setAllLoop, if_neg h]
      exact ih c

/-- The loop preserves the plugin name. -/
lemma setAllLoop_name (es : Config) (c : PluginConfig) :
    (PluginConfig.setAllLoop c es).1.name = c.name :=
  setAllLoop_preserves (fun c => c.name)
    (by intro c key value; unfold PluginConfig.setAllUpdate; split <;> rfl) es c

/-- The loop preserves the defaults snapshot. -/
lemma setAllLoop_defaultConfig (es : Config) (c : PluginConfig) :
    (PluginConfig.setAllLoop c es).1.defaultConfig = c.defaultConfig :=
  setAllLoop_preserves (fun c => c.defaultConfig)
    (by intro c key value; unfold PluginConfig.setAllUpdate; split <;> rfl) es c

/-- The loop preserves the per-key subscriber map. -/
lemma setAllLoop_subscribers (es : Config) (c : PluginConfig) :
    (PluginConfig.setAllLoop c es).1.subscribers = c.subscribers :=
  setAllLoop_preserves (fun c => c.subscribers)
    (by intro c key value; unfold PluginConfig.setAllUpdate; split <;> rfl) es c

/-- The loop preserves the all-subscriber list. -/
lemma setAllLoop_allSubscribers (es : Config) (c : PluginConfig) :
    (PluginConfig.setAllLoop c es).1.allSubscribers = c.allSubscribers :=
  setAllLoop_preserves (fun c => c.allSubscribers)
    (by intro c key value; unfold PluginConfig.setAllUpdate; split <;> rfl) es c

/-- `onChange` with `single = false` emits no persistence event. -/
lemma onChange_false_filter_save (c : PluginConfig) (k : String) :
    (PluginConfig.onChange c k false).filter Event.isSave = [] := by
  unfold PluginConfig.onChange
  cases lookupSub c.subscribers k <;> simp [Event.isSave]

/-- `onChange` with `single = false` emits no all-subscriber event. -/
lemma onChange_false_filter_allNotify (c : PluginConfig) (k : String) :
    (PluginConfig.onChange c k false).filter Event.isAllNotify = [] := by
  unfold PluginConfig.onChange
  cases lookupSub c.subscribers k <;> simp [Event.isAllNotify]

/-- The loop body emits no persistence event. -/
lemma setAllLoop_filter_save (es : Config) :
    ∀ c : PluginConfig, ((PluginConfig.setAllLoop c es).2.1).filter Event.isSave = [] := by
  induction es with
  | nil => intro c; rfl
  | cons kv rest ih =>
    intro c
    obtain ⟨key, value⟩ := kv
    by_cases h : getField c.config key ≠ value
    · simp only [PluginConfig.setAllLoop, if_pos h, List.filter_append]
      rw [onChange_false_filter_save, ih (PluginConfig.setAllUpdate c key value)]
      rfl
    · simp only [PluginConfig.setAllLoop, if_neg h]
      exact ih c

/-- The loop body emits no all-subscriber event (per-key notifications in
the loop are issued with `single = false`). -/
lemma setAllLoop_filter_allNotify (es : Config) :
    ∀ c : PluginConfig, ((PluginConfig.setAllLoop c es).2.1).filter Event.isAllNotify = [] := by
  induction es with
  | nil => intro c; rfl
  | cons kv rest ih =>
    intro c
    obtain ⟨key, value⟩ := kv
    by_cases h : getField c.config key ≠ value
    · simp only [PluginConfig.setAllLoop, if_pos h, List.filter_append]
      rw [onChange_false_filter_allNotify, ih (PluginConfig.setAllUpdate c key value)]
      rfl
    · simp only [PluginConfig.setAllLoop, if_neg h]
      exact ih c

/-- The loop's `changed` flag is set exactly when some patch entry's value
differs (strict inequality) from the value stored before the call. -/
lemma setAllLoop_changed (es : Config) :
    ∀ c : PluginConfig, (PluginConfig.setAllLoop c es).2.2 =
      es.any fun kv => getField c.config kv.1 != kv.2 := by
  induction es with
  | nil => intro c; rfl
  | cons kv rest ih =>
    intro c
    obtain ⟨key, value⟩ := kv
    by_cases h : getField c.config key ≠ value
    · simp only [PluginConfig.setAllLoop, if_pos h, List.any_cons]
      simp [bne_iff_ne, h]
    · simp only [PluginConfig.setAllLoop, if_neg h, List.any_cons]
      push_neg at h
      simp [bne_iff_ne, h, ih c]

/-- Keys not mentioned in the patch are untouched by the loop. -/
lemma setAllLoop_getField_notmem (es : Config) :
    ∀ (c : PluginConfig) (k : String), k ∉ es.map Prod.fst →
      getField (PluginConfig.setAllLoop c es).1.config k = getField c.config k := by
  induction es with
  | nil => intro c k _; rfl
  | cons kv rest ih =>
    intro c k hk
    obtain ⟨key, value⟩ := kv
    simp only [List.map_cons, List.mem_cons] at hk
    push_neg at hk
    by_cases h : getField c.config key ≠ value
    · simp only [PluginConfig.setAllLoop, if_pos h]
      rw [ih (PluginConfig.setAllUpdate c key value) k hk.2,
        getField_setAllUpdate_ne c key k value hk.1]
    · simp only [PluginConfig.setAllLoop, if_neg h]
      exact ih c k hk.2

/-- Final value of a patched key (unique patch keys): the patch value unless
it is the `undefined` sentinel, in which case the old value survives. -/
lemma setAllLoop_getField_mem (es : Config) :
    ∀ c : PluginConfig, (es.map Prod.fst).Nodup →
      ∀ k v, (k, v) ∈ es →
        getField (PluginConfig.setAllLoop c es).1.config k =
          (if v = Value.undefined then getField c.config k else v) := by
  induction es with
  | nil => intro c _ k v hmem; cases hmem
  | cons kv rest ih =>
    intro c hnd k v hmem
    obtain ⟨key, value⟩ := kv
    simp only [List.map_cons, List.nodup_cons] at hnd
    rcases List.mem_cons.mp hmem with hhead | htail
    · injection hhead with hk hv
      subst hk; subst hv
      by_cases h : getField c.config k ≠ v
      · simp only [PluginConfig.setAllLoop, if_pos h]
        rw [setAllLoop_getField_notmem rest _ k hnd.1,
          getField_setAllUpdate_self]
      · push_neg at h
        simp only [PluginConfig.setAllLoop, if_neg (not_not_intro h)]
        rw [setAllLoop_getField_notmem rest c k hnd.1]
        by_cases hv : v = Value.undefined <;> simp [hv, h]
    · have hkne : k ≠ key := by
        intro hh
        exact hnd.1 (hh ▸ (List.mem_map.mpr ⟨(k, v), htail, rfl⟩))
      by_cases h : getField c.config key ≠ value
      · simp only [PluginConfig.setAllLoop, if_pos h]
        rw [ih (PluginConfig.setAllUpdate c key value) hnd.2 k v htail,
          getField_setAllUpdate_ne c key k value hkne]
      · simp only [PluginConfig.setAllLoop, if_neg h]
        exact ih c hnd.2 k v htail

/-- Each patch entry that differs from the stored value and has a registered
per-key subscriber produces an individual per-key notification carrying the
field's post-update value. -/
lemma setAllLoop_perKey_mem (es : Config) :
    ∀ c : PluginConfig, (es.map Prod.fst).Nodup →
      ∀ k v s, (k, v) ∈ es → getField c.config k ≠ v →
        lookupSub c.subscribers k = some s →
        Event.perKeyNotify s k (if v = Value.undefined then getField c.config k else v) ∈
          (PluginConfig.setAllLoop c es).2.1 := by
  induction es with
  | nil => intro c _ k v s hmem; cases hmem
  | cons kv rest ih =>
    intro c hnd k v s hmem hdiff hsub
    obtain ⟨key, value⟩ := kv
    simp only [List.map_cons, List.nodup_cons] at hnd
    rcases List.mem_cons.mp hmem with hhead | htail
    · injection hhead with hk hv
      subst hk; subst hv
      simp only [PluginConfig.setAllLoop, if_pos hdiff]
      apply List.mem_append_left
      unfold PluginConfig.onChange
      have hsub' : lookupSub (PluginConfig.setAllUpdate c k v).subscribers k = some s := by
        rw [show (PluginConfig.setAllUpdate c k v).subscribers = c.subscribers from by
          unfold PluginConfig.setAllUpdate; split <;> rfl]
        exact hsub
      rw [hsub']
      simp [getField_setAllUpdate_self]
    · have hkne : k ≠ key := by
        intro hh
        exact hnd.1 (hh ▸ (List.mem_map.mpr ⟨(k, v), htail, rfl⟩))
      by_cases h : getField c.config key ≠ value
      · simp only [PluginConfig.setAllLoop, if_pos h]
        apply List.mem_append_right
        have hs' : lookupSub (PluginConfig.setAllUpdate c key value).subscribers k = some s := by
          rw [show (PluginConfig.setAllUpdate c key value).subscribers = c.subscribers from by
            unfold PluginConfig.setAllUpdate; split <;> rfl]
          exact hsub
        have hd' : getField (PluginConfig.setAllUpdate c key value).config k ≠ v := by
          rw [getField_setAllUpdate_ne c key k value hkne]; exact hdiff
        have := ih (PluginConfig.setAllUpdate c key value) hnd.2 k v s htail hd' hs'
        rwa [getField_setAllUpdate_ne c key k value hkne] at this
      · simp only [PluginConfig.setAllLoop, if_neg h]
        exact ih c hnd.2 k v s htail hdiff hsub

/-- Filtering the all-subscriber fan-out block for all-subscriber events
keeps all of it. -/
lemma filter_allNotify_map (subs : List Nat) (cfg : Config) :
    ((subs.map fun s => Event.allNotify s cfg).filter Event.isAllNotify) =
      subs.map fun s => Event.allNotify s cfg := by
  induction subs with
  | nil => rfl
  | cons s rest ih => simp [Event.isAllNotify, ih]

/-- The all-subscriber fan-out block contains no persistence event. -/
lemma filter_save_map (subs : List Nat) (cfg : Config) :
    ((subs.map fun s => Event.allNotify s cfg).filter Event.isSave) = [] := by
  induction subs with
  | nil => rfl
  | cons s rest ih => simp [Event.isSave, ih]

/-- On an object argument the guard of `setAll` passes and the method runs
the loop, the conditional fan-out, and the final save. -/
lemma setAll_obj (c : PluginConfig) (es : Config) :
    PluginConfig.setAll c (JSArg.obj es) =
      (Except.ok (),
       (PluginConfig.setAllLoop c es).1,
       (PluginConfig.setAllLoop c es).2.1 ++
         (if (PluginConfig.setAllLoop c es).2.2 then
            (PluginConfig.setAllLoop c es).1.allSubscribers.map
              (fun s => Event.allNotify s (PluginConfig.setAllLoop c es).1.config)
          else []) ++
         [PluginConfig.save (PluginConfig.setAllLoop c es).1]) := rfl

/-! ## Claim theorems -/

/-- C1 (code_bug evidence): for every plugin name, `setupFront` registers no
request/response handler at all. `Object.entries(this)` enumerates only the
instance's own fields (the methods live on the prototype), none of which is
a function, and the loop `return`s on the first such entry — so no
`"<pluginId>-config-<operationName>"` channel is ever registered, contrary
to the claim that every callable operation except `subscribe`/`subscribeAll`
gets one. -/
theorem setupFront_registers_no_handlers :
    ∀ nm : String, setupFrontHandleChannels nm = [] := fun _ => rfl

/-- C10: the guard of `setAll` rejects only falsy values and values whose
`typeof` is not `'object'`; an array passes it (`typeof [] === 'object'`)
and is processed as a patch, its entries being index-keyed. -/
theorem setAll_accepts_arrays :
    (∀ (c : PluginConfig) (elems : List Value),
      (PluginConfig.setAll c (JSArg.arr elems)).1 = Except.ok ()) ∧
    (PluginConfig.setAll cArr (JSArg.arr [Value.intV 10, Value.intV 20])).2.1.config =
      [("0", Value.intV 10), ("1", Value.intV 20)] :=
  ⟨fun _ _ => rfl, rfl⟩

/-- C2 (counterexample): on the store `cUndef` (where `"a"` holds `1` and
one all-subscriber `7` is registered), `setAll {a: undefined}` leaves every
stored value unchanged, yet the all-subscriber fan-out fires — refuting
"fires ... if and only if at least one key's stored value actually
changed". The loop sets `changed` for the differing entry even though the
`undefined` value is not written. -/
theorem setAll_bulk_fanout_without_stored_change :
    (PluginConfig.setAll cUndef (JSArg.obj [("a", Value.undefined)])).2.1.config =
      cUndef.config ∧
    Event.allNotify 7 cUndef.config ∈
      (PluginConfig.setAll cUndef (JSArg.obj [("a", Value.undefined)])).2.2 := by
  exact ⟨rfl, by decide⟩

/-- C3: `setAll` on any argument that is neither an object nor an array
(`42`, `null`, `undefined`, a boolean, a string) fails synchronously with
the `InvalidArgument` error (`'Options must be an object.'`), returns the
state unchanged — live config, per-key subscriber map and all-subscriber
list untouched — and emits no event: no notification and no persistence
call. -/
theorem setAll_rejects_non_object (c : PluginConfig) (arg : JSArg)
    (hobj : ∀ es : Config, arg ≠ JSArg.obj es)
    (harr : ∀ vs : List Value, arg ≠ JSArg.arr vs) :
    PluginConfig.setAll c arg = (Except.error "Options must be an object.", c, []) := by
  cases arg with
  | undefined => rfl
  | nullV => rfl
  | boolA b => simp [PluginConfig.setAll, jsTypeof]
  | numA n => simp [PluginConfig.setAll, jsTypeof]
  | strA s => simp [PluginConfig.setAll, jsTypeof]
  | obj es => exact absurd rfl (hobj es)
  | arr vs => exact absurd rfl (harr vs)

/-- C3 witness: `setAll(42)` on the sample store. -/
theorem setAll_rejects_non_object_witness :
    PluginConfig.setAll cEx (JSArg.numA 42) =
      (Except.error "Options must be an object.", cEx, []) :=
  setAll_rejects_non_object cEx (JSArg.numA 42)
    (fun _ h => JSArg.noConfusion h) (fun _ h => JSArg.noConfusion h)

/-- `setAll` never changes the defaults snapshot, on either branch. -/
lemma setAll_preserves_defaultConfig (c : PluginConfig) (arg : JSArg) :
    (PluginConfig.setAll c arg).2.1.defaultConfig = c.defaultConfig := by
  unfold PluginConfig.setAll
  split
  · rfl
  · exact setAllLoop_defaultConfig _ c

/-- C9: the defaults snapshot resolved at construction time is never
mutated: after any sequence of `set`, `setAll` and `setAndMaybeRestart`
calls, `getDefaultConfig()` still returns the construction-time value. -/
theorem defaults_never_mutated (dt : DefaultTable) (nm : String)
    (io ps : Option Config) (ef : Bool) (ops : List MutOp) :
    PluginConfig.getDefaultConfig (ops.foldl applyMutOp (mkPluginConfig dt nm io ps ef)) =
      PluginConfig.getDefaultConfig (mkPluginConfig dt nm io ps ef) := by
  have hstep : ∀ (c : PluginConfig) (op : MutOp),
      (applyMutOp c op).defaultConfig = c.defaultConfig := by
    intro c op
    cases op with
    | setOp k v => rfl
    | setAllOp a => exact setAll_preserves_defaultConfig c a
    | setAndMaybeRestartOp k v => rfl
  have hall : ∀ (l : List MutOp) (c : PluginConfig),
      (l.foldl applyMutOp c).defaultConfig = c.defaultConfig := by
    intro l
    induction l with
    | nil => intro c; rfl
    | cons op rest ih =>
      intro c
      rw [List.foldl_cons, ih, hstep]
  exact hall ops _

/-- C4: `set(k, v)` makes `get(k)` return `v`; it emits exactly one
persistence call, carrying the full updated live object, as the last side
effect; the per-key notification (when a subscriber is registered) carries
the new value and every all-subscriber is invoked exactly once with the
updated object — i.e. the fixed order mutate → notify → persist. -/
theorem set_then_get_and_single_save (c : PluginConfig) (k : String) (v : Value) :
    PluginConfig.get (PluginConfig.set c k v).1 k = v ∧
    ((PluginConfig.set c k v).2.filter Event.isSave =
      [Event.save c.name (setField c.config k v)]) ∧
    ((PluginConfig.set c k v).2.getLast? =
      some (Event.save c.name (setField c.config k v))) ∧
    (∀ s, lookupSub c.subscribers k = some s →
      Event.perKeyNotify s k v ∈ (PluginConfig.set c k v).2) ∧
    ((PluginConfig.set c k v).2.filter Event.isAllNotify =
      c.allSubscribers.map fun s => Event.allNotify s (setField c.config k v)) := by
  refine ⟨getField_setField_self c.config k v, ?_, ?_, ?_, ?_⟩
  · simp only [PluginConfig.set, PluginConfig.onChange, PluginConfig.save,
      List.filter_append]
    cases lookupSub c.subscribers k <;>
      simp [Event.isSave, filter_save_map]
  · exact List.getLast?_concat _
  · intro s hs
    simp [PluginConfig.set, PluginConfig.onChange, hs, getField_setField_self]
  · simp only [PluginConfig.set, PluginConfig.onChange, PluginConfig.save,
      List.filter_append]
    cases lookupSub c.subscribers k <;>
      simp [Event.isAllNotify, filter_allNotify_map]

/-- C4 witness at a concrete store, key and value. -/
theorem set_then_get_and_single_save_witness :
    PluginConfig.get (PluginConfig.set cEx "a" (Value.intV 9)).1 "a" = Value.intV 9 :=
  (set_then_get_and_single_save cEx "a" (Value.intV 9)).1

/-- C6: `setAndMaybeRestart(k, v)` updates `live[k]`, informs the Menu
collaborator with the updated live object, notifies the per-key subscriber
for `k` (with the new value) and every all-subscriber (with the updated
object, i.e. `single = true`), and never emits a persistence call. -/
theorem setAndMaybeRestart_no_persist (c : PluginConfig) (k : String) (v : Value) :
    PluginConfig.get (PluginConfig.setAndMaybeRestart c k v).1 k = v ∧
    Event.setMenuOptions c.name (setField c.config k v) ∈
      (PluginConfig.setAndMaybeRestart c k v).2 ∧
    (∀ s, lookupSub c.subscribers k = some s →
      Event.perKeyNotify s k v ∈ (PluginConfig.setAndMaybeRestart c k v).2) ∧
    ((PluginConfig.setAndMaybeRestart c k v).2.filter Event.isAllNotify =
      c.allSubscribers.map fun s => Event.allNotify s (setField c.config k v)) ∧
    ((PluginConfig.setAndMaybeRestart c k v).2.filter Event.isSave = []) := by
  refine ⟨getField_setField_self c.config k v, List.mem_cons_self _ _, ?_, ?_, ?_⟩
  · intro s hs
    simp [PluginConfig.setAndMaybeRestart, PluginConfig.onChange, hs,
      getField_setField_self]
  · simp only [PluginConfig.setAndMaybeRestart, PluginConfig.onChange]
    cases lookupSub c.subscribers k <;>
      simp [Event.isAllNotify, filter_allNotify_map]
  · simp only [PluginConfig.setAndMaybeRestart, PluginConfig.onChange]
    cases lookupSub c.subscribers k <;>
      simp [Event.isSave, filter_save_map]

/-- C6 witness at a concrete store, key and value. -/
theorem setAndMaybeRestart_no_persist_witness :
    PluginConfig.get (PluginConfig.setAndMaybeRestart cEx "a" (Value.intV 9)).1 "a" =
      Value.intV 9 :=
  (setAndMaybeRestart_no_persist cEx "a" (Value.intV 9)).1

/-- C7: subscribing `s1` then `s2` for the same field leaves exactly one
per-key subscriber, `s2`: on the next change to that field `s2` is
notified and `s1` is not (last write wins, not additive). -/
theorem subscribe_last_write_wins (c : PluginConfig) (f : String) (s1 s2 : Nat)
    (hne : s1 ≠ s2) :
    lookupSub ((c.subscribe f s1).subscribe f s2).subscribers f = some s2 ∧
    ∀ v, Event.perKeyNotify s2 f v ∈ (((c.subscribe f s1).subscribe f s2).set f v).2 ∧
      ∀ w, Event.perKeyNotify s1 f w ∉ (((c.subscribe f s1).subscribe f s2).set f v).2 := by
  have hsub : lookupSub ((c.subscribe f s1).subscribe f s2).subscribers f = some s2 :=
    lookupSub_setSub_self _ f s2
  refine ⟨hsub, fun v => ⟨?_, ?_⟩⟩
  · simp [PluginConfig.set, PluginConfig.onChange, hsub, getField_setField_self]
  · intro w hw
    simp [PluginConfig.set, PluginConfig.onChange, PluginConfig.save, hsub, hne,
      Ne.symm hne] at hw

/-- C7 witness at a concrete store and distinct callbacks. -/
theorem subscribe_last_write_wins_witness :
    lookupSub ((cEx.subscribe "x" 1).subscribe "x" 2).subscribers "x" = some 2 :=
  (subscribe_last_write_wins cEx "x" 1 2 (by decide)).1

/-- The expected notification sequence only looks at the subscribers and at
the stored values of the patched keys. -/
lemma setAllExpectedNotifications_congr (rest : Config) :
    ∀ c c' : PluginConfig, c'.subscribers = c.subscribers →
      (∀ kv ∈ rest, getField c'.config kv.1 = getField c.config kv.1) →
      setAllExpectedNotifications c' rest = setAllExpectedNotifications c rest := by
  induction rest with
  | nil => intro c c' _ _; rfl
  | cons kv rest ih =>
    intro c c' hsub hg
    obtain ⟨key, value⟩ := kv
    have hk : getField c'.config key = getField c.config key :=
      hg (key, value) (List.mem_cons_self _ _)
    simp only [setAllExpectedNotifications, hsub, hk,
      ih c c' hsub fun kv hkv => hg kv (List.mem_cons_of_mem _ hkv)]

/-- The `setAll` loop emits exactly the expected notification sequence (for
unique patch keys): each differing entry with a subscriber yields its one
individual notification, in patch order, and nothing else is emitted. -/
lemma setAllLoop_events_exact (es : Config) :
    ∀ c : PluginConfig, (es.map Prod.fst).Nodup →
      (PluginConfig.setAllLoop c es).2.1 = setAllExpectedNotifications c es := by
  induction es with
  | nil => intro c _; rfl
  | cons kv rest ih =>
    intro c hnd
    obtain ⟨key, value⟩ := kv
    simp only [List.map_cons, List.nodup_cons] at hnd
    by_cases h : getField c.config key ≠ value
    · simp only [PluginConfig.setAllLoop, if_pos h, setAllExpectedNotifications]
      have hsub : (PluginConfig.setAllUpdate c key value).subscribers = c.subscribers := by
        unfold PluginConfig.setAllUpdate
        split <;> rfl
      have hcongr :
          setAllExpectedNotifications (PluginConfig.setAllUpdate c key value) rest =
            setAllExpectedNotifications c rest := by
        apply setAllExpectedNotifications_congr rest c _ hsub
        intro kv hkv
        have hne : kv.1 ≠ key := by
          intro hh
          exact hnd.1 (hh ▸ List.mem_map.mpr ⟨kv, hkv, rfl⟩)
        exact getField_setAllUpdate_ne c key kv.1 value hne
      rw [ih (PluginConfig.setAllUpdate c key value) hnd.2, hcongr]
      congr 1
      unfold PluginConfig.onChange
      rw [hsub, getField_setAllUpdate_self]
      cases lookupSub c.subscribers key <;> simp
    · simp only [PluginConfig.setAllLoop, if_neg h, setAllExpectedNotifications,
        if_neg h]
      rw [ih c hnd.2]
      simp

/-- C2 (amended): for a valid object patch (unique keys, as JS object keys
are), `setAll` updates each entry's key to the patch value unless that
value is the absent sentinel `undefined` (in which case the stored value
survives); every entry whose value differs from the stored one notifies
that key's subscriber individually (with the post-update field value,
without a per-key bulk fan-out); the all-subscriber fan-out fires exactly
once per all-subscriber — with the full final live object — if and only if
at least one patch entry's value differed from the stored value (entries
carrying `undefined` count as differing even though nothing is written);
and persistence is called exactly once regardless. The final conjunct
characterises the whole emitted trace exactly: the per-key notifications
are precisely `setAllExpectedNotifications` — so non-differing entries
(and in particular an empty patch, or one with no differing entries)
notify no subscriber at all, and no entry notifies more than once —
followed by the conditional fan-out and the single save. -/
theorem setAll_amended_spec (c : PluginConfig) (entries : Config)
    (hnd : (entries.map Prod.fst).Nodup) :
    (PluginConfig.setAll c (JSArg.obj entries)).1 = Except.ok () ∧
    (∀ k v, (k, v) ∈ entries →
      getField (PluginConfig.setAll c (JSArg.obj entries)).2.1.config k =
        (if v = Value.undefined then getField c.config k else v)) ∧
    (∀ k v s, (k, v) ∈ entries → getField c.config k ≠ v →
      lookupSub c.subscribers k = some s →
      Event.perKeyNotify s k (if v = Value.undefined then getField c.config k else v) ∈
        (PluginConfig.setAll c (JSArg.obj entries)).2.2) ∧
    ((PluginConfig.setAll c (JSArg.obj entries)).2.2.filter Event.isAllNotify =
      (if entries.any (fun kv => getField c.config kv.1 != kv.2) then
        c.allSubscribers.map
          (fun s => Event.allNotify s (PluginConfig.setAll c (JSArg.obj entries)).2.1.config)
      else [])) ∧
    ((PluginConfig.setAll c (JSArg.obj entries)).2.2.filter Event.isSave =
      [Event.save c.name (PluginConfig.setAll c (JSArg.obj entries)).2.1.config]) ∧
    ((PluginConfig.setAll c (JSArg.obj entries)).2.2 =
      setAllExpectedNotifications c entries ++
        (if entries.any (fun kv => getField c.config kv.1 != kv.2) then
          c.allSubscribers.map
            (fun s => Event.allNotify s (PluginConfig.setAll c (JSArg.obj entries)).2.1.config)
        else []) ++
        [Event.save c.name (PluginConfig.setAll c (JSArg.obj entries)).2.1.config]) := by
  rw [setAll_obj]
  refine ⟨rfl, ?_, ?_, ?_, ?_, ?_⟩
  · exact fun k v hmem => setAllLoop_getField_mem entries c hnd k v hmem
  · exact fun k v s hm hd hs =>
      List.mem_append_left _ (List.mem_append_left _
        (setAllLoop_perKey_mem entries c hnd k v s hm hd hs))
  · simp only [List.filter_append, setAllLoop_filter_allNotify, List.nil_append]
    rw [setAllLoop_changed, setAllLoop_allSubscribers]
    by_cases hany : entries.any (fun kv => getField c.config kv.1 != kv.2)
    · simp [hany, filter_allNotify_map, PluginConfig.save, Event.isAllNotify]
    · simp [hany, PluginConfig.save, Event.isAllNotify]
  · simp only [List.filter_append, setAllLoop_filter_save, List.nil_append]
    rw [setAllLoop_allSubscribers]
    by_cases hany : (PluginConfig.setAllLoop c entries).2.2
    · simp [hany, filter_save_map, PluginConfig.save, Event.isSave, setAllLoop_name]
    · simp [hany, PluginConfig.save, Event.isSave, setAllLoop_name]
  · rw [setAllLoop_events_exact entries c hnd, setAllLoop_changed,
      setAllLoop_allSubscribers]
    simp [PluginConfig.save, setAllLoop_name]

/-- C2 witness: the amended specification applied to a concrete store and
patch. -/
theorem setAll_amended_spec_witness :
    (PluginConfig.setAll cEx (JSArg.obj [("a", Value.intV 1), ("b", Value.intV 2)])).1 =
      Except.ok () :=
  (setAll_amended_spec cEx [("a", Value.intV 1), ("b", Value.intV 2)] (by decide)).1

/-- C5: on a store where `"a"` currently differs from `1` and `"b"` already
holds `2`, `setAll {a: 1, b: 2}` fires the per-key subscriber for `"a"`
(and none for `"b"`), fires each all-subscriber exactly once with the
object carrying both final values, and persists exactly once. -/
theorem setAll_two_keys_one_change (c : PluginConfig) (sa sb : Nat)
    (hsa : lookupSub c.subscribers "a" = some sa)
    (hsb : lookupSub c.subscribers "b" = some sb)
    (ha : getField c.config "a" ≠ Value.intV 1)
    (hb : getField c.config "b" = Value.intV 2) :
    (PluginConfig.setAll c (JSArg.obj [("a", Value.intV 1), ("b", Value.intV 2)])).1 =
      Except.ok () ∧
    Event.perKeyNotify sa "a" (Value.intV 1) ∈
      (PluginConfig.setAll c (JSArg.obj [("a", Value.intV 1), ("b", Value.intV 2)])).2.2 ∧
    (∀ s w, Event.perKeyNotify s "b" w ∉
      (PluginConfig.setAll c (JSArg.obj [("a", Value.intV 1), ("b", Value.intV 2)])).2.2) ∧
    ((PluginConfig.setAll c (JSArg.obj [("a", Value.intV 1), ("b", Value.intV 2)])).2.2.filter
        Event.isAllNotify =
      c.allSubscribers.map fun s => Event.allNotify s
        (PluginConfig.setAll c (JSArg.obj [("a", Value.intV 1), ("b", Value.intV 2)])).2.1.config) ∧
    getField
      (PluginConfig.setAll c (JSArg.obj [("a", Value.intV 1), ("b", Value.intV 2)])).2.1.config
      "a" = Value.intV 1 ∧
    getField
      (PluginConfig.setAll c (JSArg.obj [("a", Value.intV 1), ("b", Value.intV 2)])).2.1.config
      "b" = Value.intV 2 ∧
    ((PluginConfig.setAll c (JSArg.obj [("a", Value.intV 1), ("b", Value.intV 2)])).2.2.filter
        Event.isSave =
      [Event.save c.name
        (PluginConfig.setAll c (JSArg.obj [("a", Value.intV 1), ("b", Value.intV 2)])).2.1.config]) := by
  have hba : ("b" : String) ≠ "a" := by decide
  have hgb : getField (setField c.config "a" (Value.intV 1)) "b" = Value.intV 2 := by
    rw [getField_setField_ne c.config "a" "b" (Value.intV 1) hba]
    exact hb
  have hloop : PluginConfig.setAllLoop c [("a", Value.intV 1), ("b", Value.intV 2)] =
      ({ c with config := setField c.config "a" (Value.intV 1) },
       [Event.perKeyNotify sa "a" (Value.intV 1)], true) := by
    simp only [PluginConfig.setAllLoop, if_pos ha]
    simp [PluginConfig.setAllUpdate, PluginConfig.setAllLoop, hgb, PluginConfig.onChange,
      hsa, getField_setField_self]
  rw [setAll_obj, hloop]
  refine ⟨rfl, by simp, ?_, ?_, ?_, ?_, ?_⟩
  · intro s w hw
    simp [PluginConfig.save, hba] at hw
  · simp [PluginConfig.save, Event.isAllNotify, filter_allNotify_map, Event.isSave]
  · exact getField_setField_self c.config "a" (Value.intV 1)
  · exact hgb
  · simp [PluginConfig.save, Event.isSave, filter_save_map, Event.isAllNotify]

/-- C5 witness: the sample store `cEx` has `a = 3 ≠ 1`, `b = 2`, per-key
subscribers `1`/`2` for `a`/`b` and the all-subscriber `5`. -/
theorem setAll_two_keys_one_change_witness :
    Event.perKeyNotify 1 "a" (Value.intV 1) ∈
      (PluginConfig.setAll cEx (JSArg.obj [("a", Value.intV 1), ("b", Value.intV 2)])).2.2 :=
  (setAll_two_keys_one_change cEx 1 2 (by decide) (by decide) (by decide) (by decide)).2.1

/-- C8: constructing a store for a plugin with no Default Table entry
treats the defaults as the empty object (no error is raised — the
constructor is total), and the resulting live config equals the override
source: `initialOverrides` if provided, else the persisted config, else
`{}`. The key-uniqueness hypothesis is the JS object invariant on the
override source. -/
theorem construct_missing_defaults (dt : DefaultTable) (nm : String)
    (io ps : Option Config) (ef : Bool)
    (hnone : lookupTable dt nm = none)
    (hnd : ((overrideSource io ps).map Prod.fst).Nodup) :
    (mkPluginConfig dt nm io ps ef).config = overrideSource io ps ∧
    (mkPluginConfig dt nm io ps ef).defaultConfig = [] := by
  unfold mkPluginConfig
  rw [hnone]
  exact ⟨spreadMerge_nil (overrideSource io ps) hnd, rfl⟩

/-- C8 witness: a table with no entry for `"p"`, explicit initial
overrides. -/
theorem construct_missing_defaults_witness :
    (mkPluginConfig [("other", [("z", Value.intV 0)])] "p"
        (some [("x", Value.intV 1)]) none false).config =
      overrideSource (some [("x", Value.intV 1)]) none :=
  (construct_missing_defaults [("other", [("z", Value.intV 0)])] "p"
    (some [("x", Value.intV 1)]) none false (by decide) (by decide)).1
